import Mathlib

/-!
Verification development for the covecrm-mobile conversation subsystem.

The definitions below are a shallow embedding of the TypeScript source:

* `screens/ConversationsScreen.tsx` — conversation polling/diffing
  (`fetchConversations`), thread loading (`fetchMessages`), deep-link
  auto-selection, and the associated React state.
* `lib/socketClient.ts` — the process-wide socket registry
  (`getSocket`, `connectAndJoin`, `disconnectSocket`).
* `App.tsx` — the deep-link target state and `onClearInitialTarget` wiring.

Machine-level conventions: the source stores `lastMessageTime` as a date
string that is only ever consumed through
`c.lastMessageTime ? new Date(c.lastMessageTime).getTime() : 0`, so the
embedding stores the parsed millisecond value directly, with `0` standing
for the falsy (absent/empty) case, which the source collapses to `0` at
every use site.  Optional/nullable TS fields become `Option`.
-/

namespace CoveCRM

/-- The `Conversation` record from `ConversationsScreen.tsx` (lines 17–26).
`lastMessageTime` holds the already-parsed epoch milliseconds (see module
comment); `unread?` and `unreadCount?` are the optional TS fields;
`lastMessageDirection?: string | null` becomes `Option String`. -/
structure Conversation where
  _id : String
  name : String
  phone : String
  lastMessage : String
  lastMessageTime : Nat
  unread : Option Bool
  unreadCount : Option Nat
  lastMessageDirection : Option String
deriving DecidableEq, Repr

/-- TS `current.unreadCount ?? (current.unread ? 1 : 0)` — nullish coalescing
prefers the count (even when it is `0`), falling back to the boolean flag
read as 0-or-1 (`undefined` is falsy). -/
def unreadVal (c : Conversation) : Nat :=
  match c.unreadCount with
  | some n => n
  | none => if c.unread.getD false then 1 else 0

/-- TS `current.lastMessageTime ? new Date(...).getTime() : 0` — the stored
value already is the parsed time, with `0` for the falsy case. -/
def timeVal (c : Conversation) : Nat :=
  c.lastMessageTime

/-- TS `current.lastMessageDirection === "inbound" || === "INBOUND"`. -/
def isInbound (c : Conversation) : Bool :=
  c.lastMessageDirection == some "inbound" ||
    c.lastMessageDirection == some "INBOUND"

/-- Lookup `prevMap.get(id)` where `prevMap` was built by `prevMap.set(c._id, c)`
over `prevList` in order: a later entry with the same id overwrites an
earlier one, so lookup returns the *last* matching entry. -/
def prevMapGet (prevList : List Conversation) (id : String) :
    Option Conversation :=
  prevList.foldl (fun acc c => if c._id == id then some c else acc) none

/-- Unread value of the previous counterpart, `0` when there is none
(`prev ? prev.unreadCount ?? (prev.unread ? 1 : 0) : 0`). -/
def prevUnreadIn (prevList : List Conversation) (id : String) : Nat :=
  match prevMapGet prevList id with
  | some p => unreadVal p
  | none => 0

/-- One conversation's qualification test from the poll loop
(`ConversationsScreen.tsx` lines 162–188): inbound direction, then
`gotNewUnread = currUnread > prevUnread && currTime >= prevTime` or
`isBrandNewConv = !prev && currUnread > 0`. -/
def qualifies (prev : Option Conversation) (current : Conversation) : Bool :=
  if !isInbound current then false
  else
    let currUnread := unreadVal current
    let prevUnread := match prev with | some p => unreadVal p | none => 0
    let currTime := timeVal current
    let prevTime := match prev with | some p => timeVal p | none => 0
    (decide (currUnread > prevUnread) && decide (currTime ≥ prevTime)) ||
      (prev.isNone && decide (currUnread > 0))

/-- The `newestInbound` update (lines 189–200):
`if (!newestInbound || (currTime && currTime > newestTime)) newestInbound
 = current`, with JS numeric truthiness on `currTime`. -/
def updateNewest (newest : Option Conversation) (current : Conversation) :
    Option Conversation :=
  match newest with
  | none => some current
  | some n =>
      if !(timeVal current == 0) && decide (timeVal current > timeVal n) then
        some current
      else
        some n

/-- One iteration of the `for (const current of list)` loop body. -/
def pollStep (prevList : List Conversation)
    (newest : Option Conversation) (current : Conversation) :
    Option Conversation :=
  if qualifies (prevMapGet prevList current._id) current then
    updateNewest newest current
  else
    newest

/-- The whole diff loop: fold of `pollStep` over the fetched list. -/
def newestInbound (prevList list : List Conversation) : Option Conversation :=
  list.foldl (pollStep prevList) none

/-- The banner candidate produced by one `fetchConversations` run: the diff
only executes under `if (fromPoll && prevList.length > 0)` (line 158), and
the banner is shown under `if (fromPoll && newestInbound)` (line 207). -/
def bannerCandidate (fromPoll : Bool) (prevList list : List Conversation) :
    Option Conversation :=
  if fromPoll && decide (prevList.length > 0) then
    newestInbound prevList list
  else
    none

/-! ### Spec-modelled selection rule (§4.3 step 5)

`selectLatest` follows the spec's words — "Among all qualifying
conversations, select the one with the latest timestamp (ties unresolved —
first found wins)" — to be compared against the source's fold. -/

/-- Maximum `timeVal` over a list (0 for the empty list). -/
def maxTimeOf (l : List Conversation) : Nat :=
  l.foldl (fun m c => Nat.max m (timeVal c)) 0

/-- Modelled from the spec: the first list element attaining the latest
timestamp (`none` for the empty list). -/
def selectLatest (l : List Conversation) : Option Conversation :=
  if l.isEmpty then none
  else l.find? (fun c => timeVal c == maxTimeOf l)

/-! ### `fetchConversations` as a state transformer

The embedding runs one whole `fetchConversations` call (lines 124–219)
against an explicit fetch outcome: `ok list` for a 2xx response carrying
`list`, `fail msg` for a rejected fetch or non-2xx response (both reach the
`catch` with `err.message = msg`).  `prevList` is `conversationsRef.current`,
which mirrors the `conversations` state. -/

/-- The screen state touched by `fetchConversations`. -/
structure ConvScreenState where
  conversations : List Conversation
  loadingConvs : Bool
  convError : Option String
  bannerConv : Option Conversation
  bannerVisible : Bool
deriving DecidableEq, Repr

/-- Outcome of the network fetch inside `fetchConversations`. -/
inductive FetchOutcome where
  | ok (list : List Conversation)
  | fail (msg : String)
deriving DecidableEq, Repr

/-- One complete `fetchConversations(opts)` run: spinner only when not
`fromPoll`; `setConvError(null)`; on success the diff/banner and
`setConversations(list)`; on failure `setConvError(msg)` and
`setConversations([])`; `finally` clears the spinner when not `fromPoll`. -/
def fetchConversationsRun (fromPoll : Bool) (s : ConvScreenState)
    (r : FetchOutcome) : ConvScreenState :=
  let s0 := if !fromPoll then { s with loadingConvs := true } else s
  let s1 := { s0 with convError := none }
  match r with
  | .ok list =>
      let newest := bannerCandidate fromPoll s1.conversations list
      let s2 := { s1 with conversations := list }
      let s3 :=
        match newest with
        | some c => { s2 with bannerConv := some c, bannerVisible := true }
        | none => s2
      if !fromPoll then { s3 with loadingConvs := false } else s3
  | .fail msg =>
      let s2 := { s1 with convError := some msg, conversations := [] }
      if !fromPoll then { s2 with loadingConvs := false } else s2

/-! ### Thread loading (`fetchMessages`) and the selection race

`fetchMessages` (lines 222–268) resolves by calling `setMessages(list)`
without re-checking the current selection.  The trace semantics below
captures the interleaving of user selections (each of which starts a fetch
via the `useEffect` on `selectedConv?._id`, lines 286–293) with fetch
resolutions. -/

/-- The `Message` record from `ConversationsScreen.tsx` (lines 28–33). -/
structure Message where
  text : String
  direction : String
  leadId : Option String
  date : Option String
deriving DecidableEq, Repr

/-- Screen state touched by selection changes and `fetchMessages`;
`inFlight` books the lead ids of started-but-unresolved fetches. -/
structure ThreadState where
  selectedConv : Option String
  messages : List Message
  loadingMessages : Bool
  msgError : Option String
  inFlight : List String
deriving DecidableEq, Repr

/-- Interleaved events: a user selection (which triggers
`fetchMessages(leadId)` through the effect) and the successful resolution
of an in-flight fetch. -/
inductive ThreadEvent where
  | select (leadId : String)
  | fetchOk (leadId : String) (list : List Message)
deriving DecidableEq, Repr

/-- Event semantics: `select` runs `setSelectedConv` plus the start of
`fetchMessages` (`setLoadingMessages(true)`, `setMsgError(null)`);
`fetchOk` runs the resolution path `setMessages(list)` /
`setLoadingMessages(false)` — the source never consults `selectedConv`
there, so the update happens whatever the current selection is. -/
def threadStep (s : ThreadState) (e : ThreadEvent) : ThreadState :=
  match e with
  | .select leadId =>
      { s with selectedConv := some leadId,
               loadingMessages := true,
               msgError := none,
               inFlight := s.inFlight ++ [leadId] }
  | .fetchOk leadId list =>
      if s.inFlight.contains leadId then
        { s with messages := list,
                 loadingMessages := false,
                 inFlight := s.inFlight.erase leadId }
      else s

/-- Run a trace of interleaved events. -/
def runThread (s : ThreadState) (es : List ThreadEvent) : ThreadState :=
  es.foldl threadStep s

/-- The screen state before anything is selected. -/
def initialThreadState : ThreadState :=
  ⟨none, [], false, none, []⟩

/-! ### Deep-link resolver (lines 48–50 and 408–451, plus `App.tsx`) -/

/-- JS string truthiness for an optional prop: `undefined`/`null` and `""`
are falsy. -/
def isTruthy (o : Option String) : Bool :=
  match o with
  | some s => !(s == "")
  | none => false

/-- Source `normalizeDigits` (lines 48–50): `(p || "").replace(/\D/g, "")`,
embedded on the character list of the string. -/
def normalizeDigits (p : Option String) : List Char :=
  (p.getD "").toList.filter Char.isDigit

/-- TS `targetDigits.slice(-10)`: the last (up to) 10 characters. -/
def lastTen (l : List Char) : List Char :=
  l.drop (l.length - 10)

/-- The body of the deep-link `useEffect`'s target search (lines 417–432):
exact `_id` match first (only when `initialConversationId` is truthy), else
— when a truthy phone was supplied and its digit form is non-empty — the
first conversation whose digits-only phone ends with the target's last 10
digits. -/
def resolveTarget (initialConversationId initialPhone : Option String)
    (conversations : List Conversation) : Option Conversation :=
  let target0 : Option Conversation :=
    if isTruthy initialConversationId then
      conversations.find? (fun c => c._id == initialConversationId.getD "")
    else none
  match target0 with
  | some t => some t
  | none =>
      if isTruthy initialPhone then
        let targetLast10 := lastTen (normalizeDigits initialPhone)
        if targetLast10.isEmpty then none
        else
          conversations.find?
            (fun c => targetLast10.isSuffixOf (normalizeDigits (some c.phone)))
      else none

/-- Result of one run of the deep-link effect: the selection afterwards and
whether `onClearInitialTarget` was invoked. -/
structure DeepLinkEffectResult where
  selectedConv : Option Conversation
  clearCalled : Bool
deriving DecidableEq, Repr

/-- The deep-link `useEffect` body (lines 408–444): bail while a selection
exists, while no target prop is truthy, or while the list is empty;
otherwise resolve and, on a match, select it and call
`onClearInitialTarget`. -/
def deepLinkEffect (selectedConv : Option Conversation)
    (initialConversationId initialPhone : Option String)
    (conversations : List Conversation) : DeepLinkEffectResult :=
  if selectedConv.isSome then ⟨selectedConv, false⟩
  else if !isTruthy initialConversationId && !isTruthy initialPhone then
    ⟨selectedConv, false⟩
  else if conversations.isEmpty then ⟨selectedConv, false⟩
  else
    match resolveTarget initialConversationId initialPhone conversations with
    | some t => ⟨some t, true⟩
    | none => ⟨selectedConv, false⟩

/-- The `App.tsx` deep-link target state (lines 51–56): `fromPhone` and
`conversationId` are `string | null`. -/
structure AppDeepLinkTarget where
  fromPhone : Option String
  conversationId : Option String
deriving DecidableEq, Repr

/-- TS `deepLink?.field || undefined` (App.tsx lines 438–439): `null` and `""`
both become `undefined`. -/
def propOf (o : Option String) : Option String :=
  match o with
  | some s => if s == "" then none else some s
  | none => none

/-- One conversation-list change as seen through `App.tsx` wiring: the
props fed to the screen come from the pending target, and
`onClearInitialTarget` is `() => setDeepLinkTarget(null)` (App.tsx line
440).  Returns the selection and the pending target afterwards. -/
def deepLinkListChange (selectedConv : Option Conversation)
    (target : Option AppDeepLinkTarget) (conversations : List Conversation) :
    Option Conversation × Option AppDeepLinkTarget :=
  let cid := match target with
    | some t => propOf t.conversationId
    | none => none
  let phone := match target with
    | some t => propOf t.fromPhone
    | none => none
  let r := deepLinkEffect selectedConv cid phone conversations
  (r.selectedConv, if r.clearCalled then none else target)

/-! ### Socket registry (`lib/socketClient.ts`)

Socket objects are identified by the order of their creation (`nextId` is
the next fresh identifier).  The global registry state carries the two
globals `__crm_mobile_socket__` / `__crm_mobile_socket_email__`, every
listener registration `(socket id, event name)` in registration order, the
set of sockets on which `connect()` has been initiated, and the log of
emitted `join` events. -/

/-- Process-wide state of `lib/socketClient.ts`. -/
structure SocketRegistry where
  sock : Option Nat
  email : Option String
  nextId : Nat
  listeners : List (Nat × String)
  connected : List Nat
  joinLog : List (Nat × String)
deriving DecidableEq, Repr

/-- The three listeners `createClient` installs on a fresh socket
(lines 61–74). -/
def builtinEvents : List String :=
  ["connect_error", "error", "connect"]

/-- Source `createClient()` (lines 50–77): builds a fresh socket (with
`autoConnect:false`, so not yet connected) and registers the three builtin
listeners on it. -/
def createClient (s : SocketRegistry) : Nat × SocketRegistry :=
  let id := s.nextId
  (id, { s with nextId := id + 1,
                listeners := s.listeners ++ builtinEvents.map (fun e => (id, e)) })

/-- Source `getSocket()` (lines 80–86): return the stored socket, creating and
storing one first when none exists. -/
def getSocket (s : SocketRegistry) : Nat × SocketRegistry :=
  match s.sock with
  | some id => (id, s)
  | none =>
      let (id, s1) := createClient s
      (id, { s1 with sock := some id })

/-- TS `(userEmail || "").trim().toLowerCase()`. -/
def normalizeEmail (userEmail : Option String) : String :=
  ((userEmail.getD "").trim).toLower

/-- Source `connectAndJoin(userEmail)` (lines 89–104): get-or-create the socket,
store the normalized identity (or `null` when empty), initiate the
connection when not yet connected, and emit `join` for a non-empty
identity. -/
def connectAndJoin (s : SocketRegistry) (userEmail : Option String) :
    Nat × SocketRegistry :=
  let (sock, s1) := getSocket s
  let normalized := normalizeEmail userEmail
  let s2 := { s1 with
    email := if normalized == "" then none else some normalized }
  let s3 :=
    if s2.connected.contains sock then s2
    else { s2 with connected := s2.connected ++ [sock] }
  let s4 :=
    if normalized == "" then s3
    else { s3 with joinLog := s3.joinLog ++ [(sock, normalized)] }
  (sock, s4)

/-- Source `disconnectSocket()` (lines 107–115): `getSocket()` (which creates a
socket when none exists), `removeAllListeners()`, `disconnect()`, then both
globals are nulled. -/
def disconnectSocket (s : SocketRegistry) : SocketRegistry :=
  let (sock, s1) := getSocket s
  let s2 := { s1 with
    listeners := s1.listeners.filter (fun p => !(p.1 == sock)),
    connected := s1.connected.filter (fun i => !(i == sock)) }
  { s2 with sock := none, email := none }

/-- The two registry entry points a claim sequence may interleave. -/
inductive SocketOp where
  | get
  | connJoin (userEmail : Option String)
deriving DecidableEq, Repr

/-- Dispatch one operation. -/
def runSocketOp (s : SocketRegistry) (op : SocketOp) : Nat × SocketRegistry :=
  match op with
  | .get => getSocket s
  | .connJoin e => connectAndJoin s e

/-- Run a sequence of operations, collecting every returned socket. -/
def runSocketOps (s : SocketRegistry) (ops : List SocketOp) :
    List Nat × SocketRegistry :=
  match ops with
  | [] => ([], s)
  | op :: rest =>
      let (id, s1) := runSocketOp s op
      let (ids, s2) := runSocketOps s1 rest
      (id :: ids, s2)

/-- Registry states whose bookkeeping only mentions already-issued socket
ids — true of every state reachable from the pristine one. -/
def WellFormed (s : SocketRegistry) : Prop :=
  (∀ i, s.sock = some i → i < s.nextId) ∧
  (∀ p ∈ s.listeners, p.1 < s.nextId) ∧
  (∀ i ∈ s.connected, i < s.nextId)

instance : DecidablePred WellFormed := fun s => by
  unfold WellFormed
  infer_instance

/-! ### Concrete values used by the worked examples -/

/-- The spec's `{id:"a", unread:0, dir:"inbound", t:100}`. -/
def convA0 : Conversation :=
  ⟨"a", "Alice", "111", "", 100, none, some 0, some "inbound"⟩

/-- The spec's `{id:"a", unread:1, dir:"inbound", t:200}`. -/
def convA1 : Conversation :=
  ⟨"a", "Alice", "111", "hi", 200, none, some 1, some "inbound"⟩

/-- The spec's `{id:"b", unread:2, dir:"inbound", t:50}`. -/
def convB : Conversation :=
  ⟨"b", "Bob", "222", "yo", 50, none, some 2, some "inbound"⟩

/-- An unrelated previous-snapshot entry (outbound, nothing unread). -/
def convZ : Conversation :=
  ⟨"z", "Zoe", "333", "bye", 10, none, some 0, some "outbound"⟩

/-! ### Shared helper lemmas on the poll fold -/

/-- If nothing in the fetched list qualifies, the diff fold stays `none`. -/
theorem foldl_pollStep_none (prevList : List Conversation) :
    ∀ (l : List Conversation),
      (∀ c ∈ l, qualifies (prevMapGet prevList c._id) c = false) →
      l.foldl (pollStep prevList) none = none := by
  intro l
  induction l with
  | nil => intro _; rfl
  | cons c rest ih =>
      intro h
      have hc := h c (List.mem_cons_self c rest)
      have hrest : ∀ x ∈ rest, qualifies (prevMapGet prevList x._id) x = false :=
        fun x hx => h x (List.mem_cons_of_mem c hx)
      simp only [List.foldl_cons, pollStep, hc, if_false]
      exact ih hrest

/-- A conversation whose inbound unread value did not increase over the
previous snapshot never qualifies. -/
theorem qualifies_false_of_no_increase (prevList : List Conversation)
    (c : Conversation)
    (h : isInbound c = true → unreadVal c ≤ prevUnreadIn prevList c._id) :
    qualifies (prevMapGet prevList c._id) c = false := by
  unfold qualifies
  cases hin : isInbound c with
  | false => simp [hin]
  | true =>
      have hle := h hin
      unfold prevUnreadIn at hle
      cases hpg : prevMapGet prevList c._id with
      | none =>
          rw [hpg] at hle
          have h0 : unreadVal c = 0 := Nat.le_zero.mp hle
          simp [hin, h0]
      | some p =>
          rw [hpg] at hle
          simp only [hin, Bool.not_true, if_false, Option.isNone_some,
            Bool.false_and, Bool.or_false]
          have : decide (unreadVal c > unreadVal p) = false := by
            simp only [decide_eq_false_iff_not, gt_iff_lt, not_lt]
            exact hle
          simp [this]

/-! ### Claim theorems: banner selection -/

/-- C1 counterexample: at the spec's own input — empty previous list,
fetched list holding an inbound conversation with unread value 2 — the
diff block is skipped (`prevList.length > 0` fails), so no banner
candidate is selected, contradicting the claim that `"b"` must be
selected. -/
theorem emptyPrev_counterexample :
    isInbound convB = true ∧ unreadVal convB > 0 ∧
      bannerCandidate true [] [convB] = none := by
  refine ⟨by decide, by decide, by decide⟩

/-- C1 (amended): a background poll with an empty previous snapshot never
selects a banner candidate — the brand-new-conversation rule only applies
when at least one previous snapshot entry exists, in which case a fetched
inbound conversation without a counterpart and with unread value greater
than zero is selected. -/
theorem emptyPrev_no_banner :
    (∀ (fromPoll : Bool) (l2 : List Conversation),
        bannerCandidate fromPoll [] l2 = none) ∧
    bannerCandidate true [convZ] [convB] = some convB := by
  constructor
  · intro fromPoll l2
    simp [bannerCandidate]
  · decide

/-- C3: for a fetched inbound conversation with a counterpart of the same
identifier in the previous snapshot, qualification holds exactly when the
unread value strictly increased and the timestamp is not older; and on the
spec's example lists the banner candidate is conversation `"a"`. -/
theorem counterpart_unread_increase :
    (∀ (prevList : List Conversation) (c p : Conversation),
        prevMapGet prevList c._id = some p →
        isInbound c = true →
        (qualifies (prevMapGet prevList c._id) c = true ↔
          unreadVal p < unreadVal c ∧ timeVal p ≤ timeVal c)) ∧
    bannerCandidate true [convA0] [convA1] = some convA1 := by
  constructor
  · intro prevList c p hpg hin
    rw [hpg]
    simp [qualifies, hin]
  · decide

/-- C3 witness: the characterization applied to the spec's concrete
example conversations. -/
theorem counterpart_unread_increase_witness :
    qualifies (prevMapGet [convA0] convA1._id) convA1 = true ↔
      unreadVal convA0 < unreadVal convA1 ∧ timeVal convA0 ≤ timeVal convA1 :=
  counterpart_unread_increase.1 [convA0] convA1 convA0 (by decide) (by decide)

/-- C4: when no fetched inbound conversation's unread value exceeds the
previous snapshot's value for the same identifier (0 when absent), the
poll selects no banner candidate. -/
theorem no_unread_increase_no_banner :
    ∀ (fromPoll : Bool) (l1 l2 : List Conversation),
      (∀ c ∈ l2, isInbound c = true → unreadVal c ≤ prevUnreadIn l1 c._id) →
      bannerCandidate fromPoll l1 l2 = none := by
  intro fromPoll l1 l2 h
  unfold bannerCandidate
  split
  · exact foldl_pollStep_none l1 l2
      (fun c hc => qualifies_false_of_no_increase l1 c (h c hc))
  · rfl

/-- C4 witness: re-confirming the same unread value produces no banner. -/
theorem no_unread_increase_no_banner_witness :
    bannerCandidate true [convA0] [convA0] = none :=
  no_unread_increase_no_banner true [convA0] [convA0] (by decide)

/-! ### Claim theorems: fetch failure and the thread-switch race -/

/-- C10: any failed conversation fetch — initial or background poll —
replaces the stored list with the empty list and sets the error message;
the lost snapshot means the next successful background poll diffs against
an empty previous list and therefore selects no banner candidate. -/
theorem fetch_failure_resets_list :
    ∀ (fromPoll : Bool) (s : ConvScreenState) (msg : String),
      (fetchConversationsRun fromPoll s (.fail msg)).conversations = [] ∧
      (fetchConversationsRun fromPoll s (.fail msg)).convError = some msg ∧
      (∀ l, bannerCandidate true
          (fetchConversationsRun fromPoll s (.fail msg)).conversations l
            = none) := by
  intro fromPoll s msg
  cases fromPoll <;> simp [fetchConversationsRun, bannerCandidate]

/-- Concrete message lists for the two threads of the race trace. -/
def msgA : Message := ⟨"hello from thread A", "inbound", some "A", none⟩

/-- The other thread's message. -/
def msgB : Message := ⟨"hello from thread B", "inbound", some "B", none⟩

/-- The race trace: select thread `A` (its fetch starts), switch to thread
`B` (its fetch starts), `B`'s fetch resolves, then `A`'s late fetch
resolves. -/
def raceTrace : List ThreadEvent :=
  [.select "A", .select "B", .fetchOk "B" [msgB], .fetchOk "A" [msgA]]

/-- C2 evaluation at the failing interleaving: after the race trace the
selected conversation is `B` yet the displayed messages are thread `A`'s
late-arriving list — `fetchMessages`' resolution path stores its list
without re-checking the current selection, so the late response is *not*
discarded. -/
theorem late_fetch_overwrites_new_thread :
    (runThread initialThreadState raceTrace).selectedConv = some "B" ∧
    (runThread initialThreadState raceTrace).messages = [msgA] ∧
    [msgA] ≠ [msgB] := by
  refine ⟨by decide, by decide, by decide⟩

/-! ### Refinement: the diff fold implements the spec's selection rule -/

/-- The `newestInbound` update with the redundant `currTime` truthiness
guard dropped (`timeVal c > timeVal n` already forces `timeVal c ≠ 0`). -/
def updLatest (newest : Option Conversation) (current : Conversation) :
    Option Conversation :=
  match newest with
  | none => some current
  | some n => if timeVal current > timeVal n then some current else some n

theorem updateNewest_eq_updLatest (n : Option Conversation)
    (c : Conversation) : updateNewest n c = updLatest n c := by
  cases n with
  | none => rfl
  | some m =>
      simp only [updateNewest, updLatest]
      by_cases h : timeVal c > timeVal m
      · have hne : (timeVal c == 0) = false := by
          simp only [beq_eq_false_iff_ne, ne_eq]
          omega
        simp [h, hne]
      · simp [h]

/-- Folding over a filtered list equals folding a guarded step over the
whole list. -/
theorem foldl_filter_guard {α β : Type} (p : α → Bool) (f : β → α → β) :
    ∀ (l : List α) (a : β),
      (l.filter p).foldl f a = l.foldl (fun x y => if p y then f x y else x) a := by
  intro l
  induction l with
  | nil => intro a; rfl
  | cons c rest ih =>
      intro a
      cases h : p c <;> simp [List.filter_cons, h, ih]

/-- Running maximum of `timeVal` started from `a`. -/
def maxTimeFrom (a : Nat) (l : List Conversation) : Nat :=
  l.foldl (fun m c => Nat.max m (timeVal c)) a

theorem le_maxTimeFrom : ∀ (l : List Conversation) (a : Nat),
    a ≤ maxTimeFrom a l := by
  intro l
  induction l with
  | nil => intro a; exact Nat.le_refl a
  | cons c rest ih =>
      intro a
      have h1 : a ≤ Nat.max a (timeVal c) := Nat.le_max_left _ _
      exact Nat.le_trans h1 (ih (Nat.max a (timeVal c)))

/-- The strict-greater replacement fold started from `some m` returns the
first element of `m :: l` attaining the running maximum. -/
theorem foldl_updLatest_some : ∀ (l : List Conversation) (m : Conversation),
    l.foldl updLatest (some m) =
      (m :: l).find? (fun c => timeVal c == maxTimeFrom (timeVal m) l) := by
  intro l
  induction l with
  | nil =>
      intro m
      simp [maxTimeFrom, List.find?]
  | cons c rest ih =>
      intro m
      by_cases h : timeVal m < timeVal c
      · have hstep : updLatest (some m) c = some c := by
          simp [updLatest, h]
        have hmx : Nat.max (timeVal m) (timeVal c) = timeVal c :=
          Nat.max_eq_right (Nat.le_of_lt h)
        have hmax : maxTimeFrom (timeVal m) (c :: rest)
            = maxTimeFrom (timeVal c) rest := by
          simp only [maxTimeFrom, List.foldl_cons, hmx]
        have hge : timeVal c ≤ maxTimeFrom (timeVal c) rest :=
          le_maxTimeFrom rest (timeVal c)
        have hm_ne :
            ¬((timeVal m == maxTimeFrom (timeVal c) rest) = true) := by
          simp only [beq_iff_eq]
          omega
        rw [List.foldl_cons, hstep, ih c, hmax,
          List.find?_cons_of_neg (c :: rest) hm_ne]
      · have hle : timeVal c ≤ timeVal m := Nat.le_of_not_lt h
        have hstep : updLatest (some m) c = some m := by
          simp [updLatest, h]
        have hmx : Nat.max (timeVal m) (timeVal c) = timeVal m :=
          Nat.max_eq_left hle
        have hmax : maxTimeFrom (timeVal m) (c :: rest)
            = maxTimeFrom (timeVal m) rest := by
          simp only [maxTimeFrom, List.foldl_cons, hmx]
        rw [List.foldl_cons, hstep, ih m, hmax]
        cases hm : timeVal m == maxTimeFrom (timeVal m) rest with
        | true =>
            rw [List.find?_cons_of_pos rest hm,
              List.find?_cons_of_pos (c :: rest) hm]
        | false =>
            have hm2 : ¬((timeVal m == maxTimeFrom (timeVal m) rest) = true) := by
              simp [hm]
            have hge : timeVal m ≤ maxTimeFrom (timeVal m) rest :=
              le_maxTimeFrom rest (timeVal m)
            have hmne : timeVal m ≠ maxTimeFrom (timeVal m) rest := by
              simpa [beq_eq_false_iff_ne] using hm
            have hc2 : ¬((timeVal c == maxTimeFrom (timeVal m) rest) = true) := by
              simp only [beq_iff_eq]
              omega
            rw [List.find?_cons_of_neg rest hm2,
              List.find?_cons_of_neg (c :: rest) hm2,
              List.find?_cons_of_neg rest hc2]


/-- The source's diff fold equals the spec-modelled selection rule applied
to the qualifying sublist. -/
theorem newestInbound_eq_selectLatest (prevList curr : List Conversation) :
    newestInbound prevList curr =
      selectLatest
        (curr.filter (fun c => qualifies (prevMapGet prevList c._id) c)) := by
  have hupd : updateNewest = updLatest :=
    funext fun n => funext fun c => updateNewest_eq_updLatest n c
  have h1 : newestInbound prevList curr
      = (curr.filter (fun c => qualifies (prevMapGet prevList c._id) c)).foldl
          updateNewest none := by
    rw [newestInbound,
      foldl_filter_guard (fun c => qualifies (prevMapGet prevList c._id) c)
        updateNewest curr none]
    rfl
  rw [h1, hupd]
  cases hf : curr.filter (fun c => qualifies (prevMapGet prevList c._id) c) with
  | nil => rfl
  | cons c rest =>
      rw [List.foldl_cons]
      have hstep : updLatest none c = some c := rfl
      rw [hstep, foldl_updLatest_some rest c]
      have hz : Nat.max 0 (timeVal c) = timeVal c := Nat.zero_max _
      have hmax : maxTimeOf (c :: rest) = maxTimeFrom (timeVal c) rest := by
        simp only [maxTimeOf, maxTimeFrom, List.foldl_cons, hz]
      simp [selectLatest, hmax]

/-- C5: among all qualifying conversations of a background poll (with a
non-empty previous snapshot), the one with the latest last-message
timestamp is selected, ties going to the first in list order — stated as
equality with the spec-modelled `selectLatest` over the qualifying
sublist. -/
theorem latest_qualifier_wins :
    ∀ (prevList curr : List Conversation), prevList ≠ [] →
      bannerCandidate true prevList curr =
        selectLatest
          (curr.filter (fun c => qualifies (prevMapGet prevList c._id) c)) := by
  intro prevList curr hne
  have hlen : (decide (prevList.length > 0)) = true := by
    simp [List.length_pos, hne]
  rw [bannerCandidate]
  simp only [hlen, Bool.and_self, if_true]
  exact newestInbound_eq_selectLatest prevList curr

/-- A second brand-new inbound conversation tied at timestamp 50. -/
def convB2 : Conversation :=
  ⟨"b2", "Ben", "444", "hey", 50, none, some 3, some "inbound"⟩

/-- C5 witness: the refinement applied to a concrete poll in which two
qualifying conversations share a timestamp. -/
theorem latest_qualifier_wins_witness :
    bannerCandidate true [convZ] [convB, convB2] =
      selectLatest
        (([convB, convB2]).filter
          (fun c => qualifies (prevMapGet [convZ] c._id) c)) :=
  latest_qualifier_wins [convZ] [convB, convB2] (by decide)

/-! ### Claim theorems: deep-link resolution -/

/-- A stored conversation whose phone is formatted `555-123-4567`. -/
def convPhone : Conversation :=
  ⟨"p1", "Pat", "555-123-4567", "", 0, none, none, none⟩

/-- A stored conversation with identifier `p2` and an unrelated phone. -/
def convId2 : Conversation :=
  ⟨"p2", "Quinn", "999", "", 0, none, none, none⟩

/-- C6: deep-link resolution returns at most one conversation (it is an
`Option`-valued `find?` chain); an exact identifier match always wins; when
no identifier match exists the result is exactly the phone-based
trailing-10-digit resolution; and target phone `"+15551234567"` matches a
stored phone of `"555-123-4567"`. -/
theorem deep_link_resolution :
    (∀ (cid phone : Option String) (convs : List Conversation)
        (t : Conversation),
        isTruthy cid = true →
        convs.find? (fun c => c._id == cid.getD "") = some t →
        resolveTarget cid phone convs = some t) ∧
    (∀ (cid phone : Option String) (convs : List Conversation),
        convs.find? (fun c => c._id == cid.getD "") = none →
        resolveTarget cid phone convs = resolveTarget none phone convs) ∧
    resolveTarget none (some "+15551234567") [convPhone] = some convPhone := by
  refine ⟨?_, ?_, by decide⟩
  · intro cid phone convs t htr hfind
    simp [resolveTarget, htr, hfind]
  · intro cid phone convs hfind
    have hnone : isTruthy (none : Option String) = false := rfl
    cases htr : isTruthy cid with
    | false => simp [resolveTarget, htr, hnone]
    | true => simp [resolveTarget, htr, hfind, hnone]

/-- C6 witness: with a pending target carrying both an identifier and a
phone number that each would match, the identifier match wins. -/
theorem deep_link_resolution_witness :
    resolveTarget (some "p2") (some "+15551234567") [convPhone, convId2]
      = some convId2 :=
  deep_link_resolution.1 (some "p2") (some "+15551234567")
    [convPhone, convId2] convId2 (by decide) (by decide)

/-- C7: the pending deep-link target is consumed at most once.  While a
conversation is selected the effect does nothing — it neither selects nor
clears — even if stale props still carry target fields; with no pending
target fields the effect also does nothing; and a successful match selects
the conversation and clears the pending target (`setDeepLinkTarget(null)`),
so any later conversation-list change leaves the selection untouched. -/
theorem deep_link_consumed_once :
    (∀ (x : Conversation) (cid phone : Option String)
        (convs : List Conversation),
        deepLinkEffect (some x) cid phone convs = ⟨some x, false⟩) ∧
    (∀ (x : Conversation) (target : Option AppDeepLinkTarget)
        (convs : List Conversation),
        deepLinkListChange (some x) target convs = (some x, target)) ∧
    (∀ (sel : Option Conversation) (convs : List Conversation),
        deepLinkEffect sel none none convs = ⟨sel, false⟩) ∧
    deepLinkListChange none (some ⟨some "+15551234567", none⟩) [convPhone]
      = (some convPhone, none) := by
  refine ⟨?_, ?_, ?_, by decide⟩
  · intro x cid phone convs
    simp [deepLinkEffect]
  · intro x target convs
    simp [deepLinkListChange, deepLinkEffect]
  · intro sel convs
    simp [deepLinkEffect, isTruthy]

/-! ### Claim theorems: socket registry -/

theorem getSocket_of_some {s : SocketRegistry} {i : Nat}
    (h : s.sock = some i) : getSocket s = (i, s) := by
  unfold getSocket
  rw [h]

theorem getSocket_of_none {s : SocketRegistry} (h : s.sock = none) :
    getSocket s =
      (s.nextId,
        { s with sock := some s.nextId,
                 nextId := s.nextId + 1,
                 listeners := s.listeners
                   ++ builtinEvents.map (fun e => (s.nextId, e)) }) := by
  unfold getSocket createClient
  rw [h]

theorem getSocket_sock (s : SocketRegistry) :
    ((getSocket s).2).sock = some (getSocket s).1 := by
  cases h : s.sock with
  | some i => rw [getSocket_of_some h]; exact h
  | none => rw [getSocket_of_none h]

theorem connectAndJoin_preserves {s : SocketRegistry} {i : Nat}
    (h : s.sock = some i) (e : Option String) :
    (connectAndJoin s e).1 = i ∧ ((connectAndJoin s e).2).sock = some i := by
  unfold connectAndJoin
  rw [getSocket_of_some h]
  dsimp only
  constructor
  · rfl
  · split <;> split <;> exact h

theorem connectAndJoin_sock (s : SocketRegistry) (e : Option String) :
    ((connectAndJoin s e).2).sock = some (connectAndJoin s e).1 := by
  unfold connectAndJoin
  cases hq : getSocket s with
  | mk sock s1 =>
      have hs1 : s1.sock = some sock := by
        have hx := getSocket_sock s
        rw [hq] at hx
        exact hx
      dsimp only
      split <;> split <;> exact hs1

theorem runSocketOp_sock (s : SocketRegistry) (op : SocketOp) :
    ((runSocketOp s op).2).sock = some (runSocketOp s op).1 := by
  cases op with
  | get => exact getSocket_sock s
  | connJoin e => exact connectAndJoin_sock s e

theorem runSocketOp_preserves {s : SocketRegistry} {i : Nat}
    (h : s.sock = some i) (op : SocketOp) :
    (runSocketOp s op).1 = i ∧ ((runSocketOp s op).2).sock = some i := by
  cases op with
  | get =>
      dsimp only [runSocketOp]
      rw [getSocket_of_some h]
      exact ⟨rfl, h⟩
  | connJoin e => exact connectAndJoin_preserves h e

theorem runSocketOps_all_eq :
    ∀ (ops : List SocketOp) (s : SocketRegistry) (i : Nat),
      s.sock = some i → ∀ x ∈ (runSocketOps s ops).1, x = i := by
  intro ops
  induction ops with
  | nil => intro s i _ x hx; simp [runSocketOps] at hx
  | cons op rest ih =>
      intro s i h x hx
      have hop := runSocketOp_preserves h op
      simp only [runSocketOps] at hx
      rcases List.mem_cons.mp hx with hx1 | hx2
      · rw [hx1]; exact hop.1
      · exact ih (runSocketOp s op).2 i hop.2 x hx2

/-- A list whose elements all equal `i` is pairwise-equal. -/
theorem pairwise_eq_of_all_eq (l : List Nat) (i : Nat)
    (h : ∀ x ∈ l, x = i) : l.Pairwise (· = ·) := by
  induction l with
  | nil => exact List.Pairwise.nil
  | cons a rest ih =>
      refine List.pairwise_cons.mpr ⟨?_, ?_⟩
      · intro b hb
        rw [h a (List.mem_cons_self a rest), h b (List.mem_cons_of_mem a hb)]
      · exact ih (fun x hx => h x (List.mem_cons_of_mem a hx))

/-- C8: singleton invariant of the socket registry.  Every sequence of
`getSocket`/`connectAndJoin` calls (no disconnect in between) returns
pairwise-identical sockets from any starting state; `getSocket` returns
the stored socket untouched when one exists and constructs exactly the
next fresh one otherwise; and two consecutive `connectAndJoin` calls with
the same identity return the same underlying socket. -/
theorem singleton_socket :
    (∀ (s : SocketRegistry) (ops : List SocketOp),
        ((runSocketOps s ops).1).Pairwise (· = ·)) ∧
    (∀ (s : SocketRegistry) (i : Nat), s.sock = some i → getSocket s = (i, s)) ∧
    (∀ (s : SocketRegistry), s.sock = none → (getSocket s).1 = s.nextId) ∧
    (∀ (s : SocketRegistry) (e : Option String),
        (connectAndJoin s e).1 =
          (connectAndJoin ((connectAndJoin s e).2) e).1) := by
  refine ⟨?_, ?_, ?_, ?_⟩
  · intro s ops
    cases ops with
    | nil => exact List.Pairwise.nil
    | cons op rest =>
        simp only [runSocketOps]
        refine pairwise_eq_of_all_eq _ (runSocketOp s op).1 ?_
        intro x hx
        rcases List.mem_cons.mp hx with hx1 | hx2
        · exact hx1
        · exact runSocketOps_all_eq rest (runSocketOp s op).2 (runSocketOp s op).1
            (runSocketOp_sock s op) x hx2
  · intro s i h
    exact getSocket_of_some h
  · intro s h
    rw [getSocket_of_none h]
  · intro s e
    have h1 := connectAndJoin_sock s e
    exact ((connectAndJoin_preserves h1 e).1).symm

/-- A concrete well-formed registry holding socket `0`. -/
def regLive : SocketRegistry :=
  ⟨some 0, some "u@x.com", 1, [(0, "connect"), (0, "newMessage")], [0],
    [(0, "u@x.com")]⟩

/-- C8 witness: on a concrete live registry, `getSocket` returns the
stored socket and leaves the state untouched. -/
theorem singleton_socket_witness : getSocket regLive = (0, regLive) :=
  singleton_socket.2.1 regLive 0 (by decide)

theorem connectAndJoin_of_none_fst {s : SocketRegistry}
    (h : s.sock = none) (e : Option String) :
    (connectAndJoin s e).1 = s.nextId := by
  unfold connectAndJoin
  rw [getSocket_of_none h]

theorem connectAndJoin_of_none_listeners {s : SocketRegistry}
    (h : s.sock = none) (e : Option String) :
    ((connectAndJoin s e).2).listeners
      = s.listeners ++ builtinEvents.map (fun ev => (s.nextId, ev)) := by
  unfold connectAndJoin
  rw [getSocket_of_none h]
  dsimp only
  split <;> split <;> rfl

theorem disconnect_of_some {s : SocketRegistry} {i : Nat}
    (h : s.sock = some i) :
    disconnectSocket s =
      { s with sock := none, email := none,
               listeners := s.listeners.filter (fun p => !(p.1 == i)),
               connected := s.connected.filter (fun j => !(j == i)) } := by
  unfold disconnectSocket
  rw [getSocket_of_some h]

/-- C9: `disconnectSocket` on a live registry clears the stored socket and
identity, leaves no listener and no connection entry for the closed
socket, and a subsequent `connectAndJoin` returns a strictly fresh socket
none of whose listeners existed before the disconnect; on a registry with
no connection it only burns a fresh identifier — the transient client that
`getSocket` builds inside `disconnectSocket` is stripped of its listeners
and closed again, so the observable registry state is unchanged. -/
theorem disconnect_behavior :
    ∀ (s : SocketRegistry), WellFormed s →
      ((∀ i, s.sock = some i →
          (disconnectSocket s).sock = none ∧
          (disconnectSocket s).email = none ∧
          (∀ p ∈ (disconnectSocket s).listeners, p.1 ≠ i) ∧
          (∀ j ∈ (disconnectSocket s).connected, j ≠ i) ∧
          (∀ e, (connectAndJoin (disconnectSocket s) e).1 ≠ i ∧
            ∀ p ∈ ((connectAndJoin (disconnectSocket s) e).2).listeners,
              p.1 = (connectAndJoin (disconnectSocket s) e).1 →
                p ∉ s.listeners)) ∧
       (s.sock = none → s.email = none →
          disconnectSocket s = { s with nextId := s.nextId + 1 })) := by
  intro s hwf
  constructor
  · intro i h
    have hd := disconnect_of_some h
    have hD : (disconnectSocket s).sock = none := by rw [hd]
    have hN : (disconnectSocket s).nextId = s.nextId := by rw [hd]
    refine ⟨hD, by rw [hd], ?_, ?_, ?_⟩
    · intro p hp
      rw [hd] at hp
      have := (List.mem_filter.mp hp).2
      simp only [Bool.not_eq_true', beq_eq_false_iff_ne, ne_eq] at this
      exact this
    · intro j hj
      rw [hd] at hj
      have := (List.mem_filter.mp hj).2
      simp only [Bool.not_eq_true', beq_eq_false_iff_ne, ne_eq] at this
      exact this
    · intro e
      have hi : i < s.nextId := hwf.1 i h
      constructor
      · rw [connectAndJoin_of_none_fst hD e, hN]
        omega
      · intro p hp hfst
        rw [connectAndJoin_of_none_fst hD e, hN] at hfst
        intro hmem
        have hlt : p.1 < s.nextId := hwf.2.1 p hmem
        omega
  · intro hnone hemail
    obtain ⟨so, em, n, L, C, J⟩ := s
    simp only at hnone hemail
    subst hnone
    subst hemail
    have hwfl : ∀ p ∈ L, p.1 < n := by
      intro p hp
      exact hwf.2.1 p hp
    have hwfc : ∀ j ∈ C, j < n := by
      intro j hj
      exact hwf.2.2 j hj
    have hfl : L.filter (fun p => !(p.1 == n)) = L := by
      refine List.filter_eq_self.mpr ?_
      intro p hp
      have := hwfl p hp
      simp only [Bool.not_eq_true', beq_eq_false_iff_ne, ne_eq]
      omega
    have hfc : C.filter (fun j => !(j == n)) = C := by
      refine List.filter_eq_self.mpr ?_
      intro j hj
      have := hwfc j hj
      simp only [Bool.not_eq_true', beq_eq_false_iff_ne, ne_eq]
      omega
    have hnn : (⟨none, none, n, L, C, J⟩ : SocketRegistry).sock = none := rfl
    rw [disconnectSocket, getSocket_of_none hnn]
    dsimp only
    rw [List.filter_append, hfl]
    simp [builtinEvents, hfc]

/-- A concrete registry with no live connection and clean bookkeeping. -/
def regEmpty : SocketRegistry :=
  ⟨none, none, 3, [(0, "connect"), (1, "error")], [1], [(0, "a@b.c")]⟩

/-- C9 witness: the theorem instantiated at concrete registries — the
live registry `regLive` is torn down (globals nulled, listener and
connection entries of socket `0` gone), and on the empty registry the call
only advances the fresh-id counter. -/
theorem disconnect_behavior_witness :
    ((disconnectSocket regLive).sock = none ∧
      (disconnectSocket regLive).email = none) ∧
    disconnectSocket regEmpty = { regEmpty with nextId := 4 } := by
  constructor
  · have h := (disconnect_behavior regLive (by decide)).1 0 (by decide)
    exact ⟨h.1, h.2.1⟩
  · exact (disconnect_behavior regEmpty (by decide)).2 (by decide) (by decide)

end CoveCRM
